import Mathlib

/-!
A verification development for the whispr speech-to-text utility
(src/whispr.py). The Python source is shallowly embedded: pure logic
becomes Lean functions, the activation state machine becomes an explicit
step function over an engine record, and external effects (subprocess
calls, clipboard, notifications) are represented as explicit action values
or environment records.
-/

/-- Mirrors the `WhisprConfig` dataclass (src/whispr.py lines 68-95) with its
field defaults. `hold_duration` is a Python float; it is modelled as a
rational number. -/
structure WhisprConfig where
  trigger_keys : String := "alt,print_screen"
  hold_duration : ℚ := 1/2
  sample_rate : ℕ := 16000
  channels : ℕ := 1
  whisper_model : String := ""
  whisper_server : String := ""
  use_openai : Bool := false
  openai_api_key : String := ""
  auto_paste : Bool := true
  copy_to_clipboard : Bool := true
  overlay_position : String := "bottom"
  play_sounds : Bool := true
  show_notifications : Bool := true
deriving Repr, DecidableEq

/-- The four states of the `WhisprState` enum (src/whispr.py lines 180-187). -/
inductive WhisprState where
  | IDLE
  | WAITING
  | RECORDING
  | TRANSCRIBING
deriving Repr, DecidableEq

/-- The three transcription backend variants of `Transcriber`
(src/whispr.py lines 253-392). -/
inductive Backend where
  | openai
  | server
  | localWhisper
deriving Repr, DecidableEq

/-- The backend dispatch performed by `Transcriber.transcribe`
(src/whispr.py lines 259-266): `use_openai` selects the OpenAI variant,
otherwise a non-empty `whisper_server` selects the server variant,
otherwise the local variant runs. -/
def Transcriber.transcribeDispatch (cfg : WhisprConfig) : Backend :=
  if cfg.use_openai then Backend.openai
  else if cfg.whisper_server ≠ "" then Backend.server
  else Backend.localWhisper

/-- The backend selection as the claim words it (dispatch keyed on whether
the cloud API key is set, rather than on the `use_openai` flag). Stated
only for comparison with `Transcriber.transcribeDispatch`, which follows
the source. -/
def claimSelectBackend (cfg : WhisprConfig) : Backend :=
  if cfg.openai_api_key ≠ "" then Backend.openai
  else if cfg.whisper_server ≠ "" then Backend.server
  else Backend.localWhisper

/-! ### Text cleaning (`Transcriber._clean_text`, src/whispr.py lines 381-392)

The Python code applies `re.sub` with pattern `\([^)]*\)` (then `\[[^\]]*\]`),
strips surrounding whitespace, and uppercases the first character.
`re.sub` removes the leftmost non-overlapping matches: a match starts at an
opening delimiter, spans the (possibly empty) run of characters other than
the closing delimiter, and ends at the first closing delimiter after it. -/

/-- Drop characters up to and including the first occurrence of `cl`;
`none` when `cl` does not occur. This is the span consumed by one regex
match after its opening delimiter. -/
def dropThroughClose (cl : Char) : List Char → Option (List Char)
  | [] => none
  | c :: rest => if c = cl then some rest else dropThroughClose cl rest

/-- One pass of `re.sub(r"\(op[^cl]*cl\)", "", text)`: scan left to right,
removing each leftmost match of an `op`-delimited, `cl`-terminated span. -/
def subDelims (op cl : Char) : List Char → List Char
  | [] => []
  | c :: rest =>
    if c = op then
      match h : dropThroughClose cl rest with
      | some rest' => subDelims op cl rest'
      | none => c :: subDelims op cl rest
    else c :: subDelims op cl rest
termination_by l => l.length
decreasing_by
  · have key : ∀ (l l' : List Char),
        dropThroughClose cl l = some l' → l'.length < l.length := by
      intro l
      induction l with
      | nil => intro l' h2; simp [dropThroughClose] at h2
      | cons a as ih =>
        intro l' h2
        rw [dropThroughClose] at h2
        by_cases hac : a = cl
        · rw [if_pos hac] at h2
          cases h2
          simp
        · rw [if_neg hac] at h2
          exact Nat.lt_trans (ih _ h2) (by simp)
    exact Nat.lt_succ_of_lt (key rest rest' h)
  · simp
  · simp

/-- Python whitespace characters stripped by `str.strip()` (ASCII range). -/
def pyIsSpace (c : Char) : Bool :=
  c = ' ' || c = '\t' || c = '\n' || c = '\r' || c = '\x0b' || c = '\x0c'

/-- `str.strip()` on the left. -/
def trimLeftChars (l : List Char) : List Char :=
  l.dropWhile pyIsSpace

/-- `str.strip()` on the right. -/
def trimRightChars (l : List Char) : List Char :=
  (l.reverse.dropWhile pyIsSpace).reverse

/-- `text.strip()`. -/
def trimChars (l : List Char) : List Char :=
  trimRightChars (trimLeftChars l)

/-- `text[0].upper() + text[1:]` for non-empty text (ASCII uppercasing). -/
def capitalizeChars : List Char → List Char
  | [] => []
  | c :: rest => c.toUpper :: rest

/-- `Transcriber._clean_text` on character lists: remove parenthesized
spans, remove bracketed spans, strip, capitalize the first letter. -/
def cleanChars (l : List Char) : List Char :=
  capitalizeChars (trimChars (subDelims '[' ']' (subDelims '(' ')' l)))

/-- `Transcriber._clean_text` (src/whispr.py lines 381-392). -/
def Transcriber.clean_text (s : String) : String :=
  String.mk (cleanChars s.data)

/-! ### History (`Whispr.add_transcription`, src/whispr.py lines 427-445) -/

/-- `Whispr.MAX_HISTORY` (src/whispr.py line 398). -/
def MAX_HISTORY : ℕ := 10

/-- `Whispr.add_transcription`: a falsy (empty) text is ignored; otherwise
the text is inserted at index 0 and the list is truncated to
`MAX_HISTORY` entries. -/
def Whispr.add_transcription (text : String) (history : List String) : List String :=
  if text = "" then history
  else (text :: history).take MAX_HISTORY

/-- `Whispr.clear_transcription_history`. -/
def Whispr.clear_transcription_history (_history : List String) : List String :=
  []

/-! ### Audio recorder (`AudioRecorder.stop`, src/whispr.py lines 229-250) -/

/-- The fixed RAM-disk capture path (src/whispr.py line 199). -/
def temp_wav : String := "/dev/shm/whispr_rec.wav"

/-- Mutable fields of `AudioRecorder` relevant to `stop()`. -/
structure AudioRecorder where
  sample_rate : ℕ := 16000
  channels : ℕ := 1
  is_recording : Bool := false
  has_process : Bool := false
deriving Repr, DecidableEq

/-- Environment observed by one call to `AudioRecorder.stop`: whether the
graceful SIGINT wait timed out (forcing a kill), and the state of the
output file after the settle delay. -/
structure StopEnv where
  graceful_stop_timed_out : Bool
  file_exists : Bool
  file_size : ℕ
deriving Repr, DecidableEq

/-- `AudioRecorder.stop`: clears `is_recording` first (on every path,
including the wait-timeout/kill path), terminates the capture process,
then returns the capture path only when the file exists with size above
1000 bytes. -/
def AudioRecorder.stop (r : AudioRecorder) (env : StopEnv) :
    Option String × AudioRecorder :=
  let r' := { r with is_recording := false, has_process := false }
  if env.file_exists = true ∧ 1000 < env.file_size then (some temp_wav, r')
  else (none, r')

/-! ### Paste delivery (`Whispr._paste`, src/whispr.py lines 774-902) -/

/-- Externally visible input-synthesis and clipboard actions available to
the delivery code. `typeText` (character-by-character synthetic typing)
is part of the action alphabet so that its absence from the emitted
traces can be stated. -/
inductive PasteAction where
  | keyupModifiers
  | saveClipboard (ok : Bool)
  | setClipboard (text : String)
  | sendKey (shortcut : String)
  | typeText (text : String)
  | restoreClipboard
deriving Repr, DecidableEq

/-- The action trace emitted by `Whispr._paste` given whether the active
window is a terminal and whether the clipboard snapshot (`xsel -ob`)
succeeded: release modifiers, snapshot, write the text to the clipboard,
send ctrl+shift+v (terminal) or ctrl+v (otherwise), and, when a snapshot
was taken, restore it after the delay. An empty text returns early. -/
def Whispr.pasteActions (is_terminal : Bool) (snapshot_ok : Bool)
    (text : String) : List PasteAction :=
  if text = "" then []
  else
    PasteAction.keyupModifiers ::
    PasteAction.saveClipboard snapshot_ok ::
    PasteAction.setClipboard text ::
    PasteAction.sendKey (if is_terminal then "ctrl+shift+v" else "ctrl+v") ::
    (if snapshot_ok then [PasteAction.restoreClipboard] else [])

/-- The delivery behaviour as the claim words it: for a non-terminal
window with auto-paste configured and clipboard use disabled, direct
character-by-character typing that does not touch the clipboard; only
otherwise the clipboard pattern. Stated only for comparison with
`Whispr.pasteActions`, which follows the source. -/
def claimPasteActions (is_terminal : Bool) (cfg : WhisprConfig)
    (snapshot_ok : Bool) (text : String) : List PasteAction :=
  if text = "" then []
  else if is_terminal = false ∧ cfg.auto_paste = true ∧ cfg.copy_to_clipboard = false then
    [PasteAction.keyupModifiers, PasteAction.typeText text]
  else
    PasteAction.keyupModifiers ::
    PasteAction.saveClipboard snapshot_ok ::
    PasteAction.setClipboard text ::
    PasteAction.sendKey (if is_terminal then "ctrl+shift+v" else "ctrl+v") ::
    (if snapshot_ok then [PasteAction.restoreClipboard] else [])

/-- Clipboard-relevant state threaded through a paste action trace:
current clipboard content and the snapshot held by the restore closure. -/
structure ClipState where
  clipboard : String
  saved : Option String
deriving Repr, DecidableEq

/-- Effect of a single paste action on the clipboard state. -/
def applyPasteAction (s : ClipState) : PasteAction → ClipState
  | PasteAction.keyupModifiers => s
  | PasteAction.saveClipboard ok =>
    if ok then { s with saved := some s.clipboard } else s
  | PasteAction.setClipboard text => { s with clipboard := text }
  | PasteAction.sendKey _ => s
  | PasteAction.typeText _ => s
  | PasteAction.restoreClipboard =>
    match s.saved with
    | some old => { s with clipboard := old }
    | none => s

/-- Run a paste action trace over the clipboard state. -/
def runPasteActions (s : ClipState) (acts : List PasteAction) : ClipState :=
  acts.foldl applyPasteAction s

/-! ### Completion handler (`Whispr._transcribe_file` and `Whispr._finish`,
src/whispr.py lines 645-699) -/

/-- The result of one transcription unit of work
(`Whispr._transcribe_file`): the single backend invocation either returns
text or raises, and either way a `_finish` call is produced — the
`(text, error)` pair handed to `GLib.idle_add`. Nothing escapes. -/
def Whispr.transcribeFileStep (result : Except String String) :
    Option String × Option String :=
  match result with
  | Except.ok text => (some text, none)
  | Except.error e => (none, some e)

/-- Observable outcome of `Whispr._finish`. -/
structure FinishOutcome where
  state : WhisprState
  history : List String
  notifications : List (String × String)
  sounds : List String
  pasted : Bool
  copied : Bool
deriving Repr, DecidableEq

/-- `Whispr._finish` (src/whispr.py lines 661-699): always returns the
engine to IDLE; a truthy error produces an error notification and sound
and nothing else; a falsy text reports no speech; otherwise the text is
added to history, pasted or copied per configuration, and previewed.
Notifications and sounds are gated by the configuration flags exactly as
`_notify` and `_play_sound` gate them. -/
def Whispr.finish (cfg : WhisprConfig) (history : List String)
    (text? : Option String) (error? : Option String) : FinishOutcome :=
  let notif := fun (title msg : String) =>
    if cfg.show_notifications then [(title, msg)] else ([] : List (String × String))
  let sound := fun (kind : String) =>
    if cfg.play_sounds then [kind] else ([] : List String)
  if error?.getD "" ≠ "" then
    { state := WhisprState.IDLE, history := history,
      notifications := notif "Whispr" ("Error: " ++ error?.getD ""),
      sounds := sound "error", pasted := false, copied := false }
  else if text?.getD "" = "" then
    { state := WhisprState.IDLE, history := history,
      notifications := notif "Whispr" "No speech detected",
      sounds := [], pasted := false, copied := false }
  else
    let t := text?.getD ""
    { state := WhisprState.IDLE,
      history := Whispr.add_transcription t history,
      notifications := notif "Whispr"
        (if 80 < t.length then String.mk (t.data.take 80) ++ "..." else t),
      sounds := sound "success",
      pasted := cfg.auto_paste,
      copied := !cfg.auto_paste && cfg.copy_to_clipboard }

/-! ### Activation engine (`Whispr._on_key_press`, `Whispr._on_key_release`,
`Whispr._check_activation`, src/whispr.py lines 513-643)

All three handlers run under the single `self._lock`, so they are modelled
as a sequential step function. GLib timer fires are modelled as explicit
events carrying the wall-clock fire time; a fire may arrive at any time
(even stale), which is stronger than what GLib can deliver. -/

/-- The pynput keys `_is_trigger_key` inspects (src/whispr.py lines
517-532); `other` stands for any further key. -/
inductive PKey where
  | ctrl | ctrl_l | ctrl_r
  | alt | alt_l | alt_r
  | cmd | cmd_l | cmd_r
  | print_screen
  | other (code : ℕ)
deriving Repr, DecidableEq

/-- `str.split(",")` on character lists (helper for `trigger_keys`
parsing), with the accumulated current field. -/
def splitCommaAux (cur : List Char) : List Char → List (List Char)
  | [] => [cur.reverse]
  | c :: rest =>
    if c = ',' then cur.reverse :: splitCommaAux [] rest
    else splitCommaAux (c :: cur) rest

/-- `str.split(",")` on character lists. -/
def splitCommaChars (l : List Char) : List (List Char) :=
  splitCommaAux [] l

/-- `str.lower()` (ASCII lowercasing). -/
def pyLowerChars (l : List Char) : List Char :=
  l.map Char.toLower

/-- `Whispr._get_trigger_keys` (src/whispr.py lines 513-515): split the
configured comma-separated string, strip and lowercase each name. -/
def Whispr.getTriggerKeys (s : String) : List String :=
  (splitCommaChars s.data).map fun k => String.mk (pyLowerChars (trimChars k))

/-- `Whispr._is_trigger_key` (src/whispr.py lines 517-532). -/
def Whispr.isTriggerKey (triggers : List String) (key : PKey) : Bool :=
  triggers.any fun trigger =>
    if trigger = "ctrl" || trigger = "control" then
      key = PKey.ctrl || key = PKey.ctrl_l || key = PKey.ctrl_r
    else if trigger = "alt" then
      key = PKey.alt || key = PKey.alt_l || key = PKey.alt_r
    else if trigger = "super" || trigger = "meta" || trigger = "cmd" then
      key = PKey.cmd || key = PKey.cmd_l || key = PKey.cmd_r
    else if trigger = "print_screen" then
      key = PKey.print_screen
    else
      false

/-- The lock-protected mutable fields of `Whispr` driven by the key
handlers, plus two ghost counters recording the calls to
`recorder.start()` (via `_start_recording`) and `recorder.stop()` (via
`_stop_recording`), used to state "exactly once" properties. -/
structure Engine where
  state : WhisprState
  trigger_pressed : Bool
  key_press_time : Option ℚ
  activation_source : Option ℕ
  next_source : ℕ
  startCount : ℕ
  stopCount : ℕ
deriving Repr, DecidableEq

/-- The engine fields as `Whispr.__init__` sets them. -/
def Whispr.initEngine : Engine :=
  { state := WhisprState.IDLE, trigger_pressed := false,
    key_press_time := none, activation_source := none,
    next_source := 0, startCount := 0, stopCount := 0 }

/-- `Whispr._start_recording` (src/whispr.py lines 603-622): enter
RECORDING and start the recorder. -/
def Whispr.startRecording (e : Engine) : Engine :=
  { e with state := WhisprState.RECORDING, startCount := e.startCount + 1 }

/-- `Whispr._stop_recording` (src/whispr.py lines 624-643): enter
TRANSCRIBING and stop the recorder (transcription is then handed to a
background thread whose completion is a separate `_finish` event). -/
def Whispr.stopRecording (e : Engine) : Engine :=
  { e with state := WhisprState.TRANSCRIBING, stopCount := e.stopCount + 1 }

/-- `Whispr._on_key_press` (src/whispr.py lines 534-561) at wall-clock
time `t`: non-trigger keys are ignored; a press while `trigger_pressed`
is a debounced no-op; from IDLE the press time is recorded, any pending
activation source is removed, and a fresh activation check is scheduled. -/
def Whispr.onKeyPress (cfg : WhisprConfig) (key : PKey) (t : ℚ) (e : Engine) : Engine :=
  if Whispr.isTriggerKey (Whispr.getTriggerKeys cfg.trigger_keys) key = false then e
  else if e.trigger_pressed then e
  else
    let e1 := { e with trigger_pressed := true }
    if e1.state = WhisprState.IDLE then
      { e1 with
        key_press_time := some t, state := WhisprState.WAITING,
        activation_source := some e1.next_source,
        next_source := e1.next_source + 1 }
    else e1

/-- `Whispr._on_key_release` (src/whispr.py lines 563-580): non-trigger
keys are ignored; any trigger release clears the shared
`trigger_pressed` flag; from WAITING the pending check is cancelled and
the engine returns to IDLE; from RECORDING the capture stops. -/
def Whispr.onKeyRelease (cfg : WhisprConfig) (key : PKey) (e : Engine) : Engine :=
  if Whispr.isTriggerKey (Whispr.getTriggerKeys cfg.trigger_keys) key = false then e
  else
    let e1 := { e with trigger_pressed := false }
    if e1.state = WhisprState.WAITING then
      { e1 with
        state := WhisprState.IDLE, key_press_time := none,
        activation_source := none }
    else if e1.state = WhisprState.RECORDING then
      Whispr.stopRecording e1
    else e1

/-- `Whispr._check_activation` (src/whispr.py lines 582-601) firing at
wall-clock time `t`: the handle is cleared, the state and flag are
re-checked, and the elapsed time is re-validated against the fire-time
clock before recording starts. The returned Bool is the GLib callback
result; `false` destroys the timeout source, so it never re-fires. -/
def Whispr.checkActivation (cfg : WhisprConfig) (t : ℚ) (e : Engine) : Engine × Bool :=
  let e1 := { e with activation_source := none }
  if e1.state ≠ WhisprState.WAITING then (e1, false)
  else if e1.trigger_pressed = false then ({ e1 with state := WhisprState.IDLE }, false)
  else
    match e1.key_press_time with
    | none => (e1, false)
    | some t0 =>
      if cfg.hold_duration ≤ t - t0 then (Whispr.startRecording e1, false)
      else (e1, false)

/-- Events interleaved by the listener thread and the GLib main loop. -/
inductive KEvent where
  | press (key : PKey) (t : ℚ)
  | release (key : PKey)
  | timerFire (t : ℚ)
deriving Repr

/-- One serialized handler execution. -/
def Whispr.stepEvent (cfg : WhisprConfig) (e : Engine) : KEvent → Engine
  | KEvent.press key t => Whispr.onKeyPress cfg key t e
  | KEvent.release key => Whispr.onKeyRelease cfg key e
  | KEvent.timerFire t => (Whispr.checkActivation cfg t e).1

/-- Run a sequence of events. -/
def Whispr.runTrace (cfg : WhisprConfig) (e : Engine) : List KEvent → Engine
  | [] => e
  | ev :: evs => Whispr.runTrace cfg (Whispr.stepEvent cfg e ev) evs

/-- Every state the engine passes through while running a sequence of
events, including the initial and final states. -/
def Whispr.statesVisited (cfg : WhisprConfig) (e : Engine) : List KEvent → List WhisprState
  | [] => [e.state]
  | ev :: evs => e.state :: Whispr.statesVisited cfg (Whispr.stepEvent cfg e ev) evs

/-! ## Helper lemmas -/

/-- `_finish` reaches IDLE on every path. -/
theorem finish_state_idle (cfg : WhisprConfig) (history : List String)
    (text? error? : Option String) :
    (Whispr.finish cfg history text? error?).state = WhisprState.IDLE := by
  unfold Whispr.finish
  by_cases he : error?.getD "" ≠ ""
  · rw [if_pos he]
  · rw [if_neg he]
    by_cases ht : text?.getD "" = ""
    · rw [if_pos ht]
    · rw [if_neg ht]

/-! ## Claims -/

/-- C3 counterexample: with the cloud API key set but the `use_openai`
flag clear (and no server), the code dispatches to the local variant,
not the cloud variant the claim predicts. -/
theorem backend_dispatch_counterexample :
    Transcriber.transcribeDispatch { openai_api_key := "sk-test" } = Backend.localWhisper ∧
    claimSelectBackend { openai_api_key := "sk-test" } = Backend.openai ∧
    ({ openai_api_key := "sk-test" } : WhisprConfig).openai_api_key ≠ "" ∧
    ({ openai_api_key := "sk-test" } : WhisprConfig).whisper_server = "" ∧
    Backend.localWhisper ≠ Backend.openai := by
  refine ⟨rfl, rfl, ?_, rfl, ?_⟩ <;> decide

/-- C3 (amended): `Transcriber.transcribe` dispatches to exactly one
backend variant with priority cloud over server over local, where the
cloud variant is chosen when the `use_openai` flag is set, otherwise the
server variant when the server address is non-empty, otherwise the local
variant. -/
theorem backend_dispatch_priority (cfg : WhisprConfig) :
    (Transcriber.transcribeDispatch cfg = Backend.openai ↔ cfg.use_openai = true) ∧
    (Transcriber.transcribeDispatch cfg = Backend.server ↔
      cfg.use_openai = false ∧ cfg.whisper_server ≠ "") ∧
    (Transcriber.transcribeDispatch cfg = Backend.localWhisper ↔
      cfg.use_openai = false ∧ cfg.whisper_server = "") := by
  unfold Transcriber.transcribeDispatch
  rcases h : cfg.use_openai <;> by_cases hs : cfg.whisper_server = "" <;>
    simp [h, hs]

/-- C5: `AudioRecorder.stop()` returns the capture path exactly when the
output file exists with more than 1000 bytes, and clears `is_recording`
on every path (the graceful-stop timeout included, since the outcome is
independent of `graceful_stop_timed_out`). -/
theorem recorder_stop_viability_and_flag (r : AudioRecorder) (env : StopEnv) :
    ((r.stop env).1 = some temp_wav ↔ env.file_exists = true ∧ 1000 < env.file_size) ∧
    ((r.stop env).1 = none ↔ ¬(env.file_exists = true ∧ 1000 < env.file_size)) ∧
    (r.stop env).2.is_recording = false := by
  unfold AudioRecorder.stop
  by_cases h : env.file_exists = true ∧ 1000 < env.file_size
  · rw [if_pos h]
    simp [h]
  · rw [if_neg h]
    simp [h]

/-- C7: the history bound is preserved by every history operation, a
non-empty text is prepended (newest first), and an insertion into a full
history of `MAX_HISTORY` entries evicts exactly the oldest (last)
entry. -/
theorem history_bound_and_eviction (t : String) (h : List String) :
    (h.length ≤ MAX_HISTORY → (Whispr.add_transcription t h).length ≤ MAX_HISTORY) ∧
    (t ≠ "" → (Whispr.add_transcription t h).head? = some t) ∧
    (t ≠ "" → h.length = MAX_HISTORY →
      Whispr.add_transcription t h = t :: h.dropLast) ∧
    (Whispr.clear_transcription_history h).length ≤ MAX_HISTORY := by
  refine ⟨?_, ?_, ?_, by simp [Whispr.clear_transcription_history]⟩
  · intro _
    unfold Whispr.add_transcription
    by_cases ht : t = ""
    · rw [if_pos ht]; assumption
    · rw [if_neg ht]
      simpa using List.length_take_le MAX_HISTORY (t :: h)
  · intro ht
    unfold Whispr.add_transcription
    rw [if_neg ht]
    rfl
  · intro ht hlen
    unfold Whispr.add_transcription
    rw [if_neg ht]
    have h9 : MAX_HISTORY = 9 + 1 := rfl
    rw [h9, List.take_succ_cons]
    have : h.dropLast = h.take 9 := by
      rw [List.dropLast_eq_take, hlen]
      rfl
    rw [this]

/-- C7 witness: inserting an 11th entry into a full 10-entry history. -/
theorem history_bound_and_eviction_witness :
    ("k" : String) ≠ "" ∧
    (["a","b","c","d","e","f","g","h","i","j"] : List String).length = MAX_HISTORY ∧
    Whispr.add_transcription "k" ["a","b","c","d","e","f","g","h","i","j"] =
      "k" :: ["a","b","c","d","e","f","g","h","i","j"].dropLast ∧
    (Whispr.add_transcription "k" ["a","b","c","d","e","f","g","h","i","j"]).length ≤ MAX_HISTORY :=
  ⟨by decide, by decide,
    (history_bound_and_eviction "k" ["a","b","c","d","e","f","g","h","i","j"]).2.2.1
      (by decide) (by decide),
    (history_bound_and_eviction "k" ["a","b","c","d","e","f","g","h","i","j"]).1
      (by decide)⟩

/-- C6: a backend error becomes a `_finish` call (never an unhandled
fault), the error is surfaced as a notification (with notifications
enabled and a non-empty message, as every backend raise in the source
produces), the engine returns to IDLE, nothing is pasted or recorded in
history, and every backend outcome — success or failure — ends in IDLE;
the unit of work consumes exactly one backend result, so no retry
occurs. -/
theorem backend_error_notified_idle_no_retry
    (cfg : WhisprConfig) (history : List String) (e : String)
    (hn : cfg.show_notifications = true) (he : e ≠ "") :
    Whispr.transcribeFileStep (Except.error e) = (none, some e) ∧
    (Whispr.finish cfg history none (some e)).state = WhisprState.IDLE ∧
    ("Whispr", "Error: " ++ e) ∈ (Whispr.finish cfg history none (some e)).notifications ∧
    (Whispr.finish cfg history none (some e)).history = history ∧
    (Whispr.finish cfg history none (some e)).pasted = false ∧
    (∀ res : Except String String,
      (Whispr.finish cfg history (Whispr.transcribeFileStep res).1
        (Whispr.transcribeFileStep res).2).state = WhisprState.IDLE) := by
  refine ⟨rfl, finish_state_idle .., ?_, ?_, ?_, fun res => finish_state_idle ..⟩ <;>
  · unfold Whispr.finish
    rw [if_pos (by simpa using he)]
    all_goals simp [hn]

/-- C6 witness: a concrete failing backend run with the default
configuration. -/
theorem backend_error_notified_idle_no_retry_witness :
    ({} : WhisprConfig).show_notifications = true ∧
    ("Transcription failed: boom" : String) ≠ "" ∧
    (Whispr.finish {} ["old"] none (some "Transcription failed: boom")).state =
      WhisprState.IDLE ∧
    ("Whispr", "Error: " ++ "Transcription failed: boom") ∈
      (Whispr.finish {} ["old"] none (some "Transcription failed: boom")).notifications :=
  ⟨rfl, by decide,
    (backend_error_notified_idle_no_retry {} ["old"] "Transcription failed: boom"
      rfl (by decide)).2.1,
    (backend_error_notified_idle_no_retry {} ["old"] "Transcription failed: boom"
      rfl (by decide)).2.2.1⟩

/-- C4 counterexample: for a non-terminal window with auto-paste enabled
and clipboard-copy disabled, `_paste` still writes the clipboard and
sends ctrl+v; no character-by-character typing action is ever emitted,
so the trace differs from the claim's predicted direct-typing
delivery. -/
theorem paste_direct_typing_counterexample :
    Whispr.pasteActions false true "Hello world" ≠
      claimPasteActions false { auto_paste := true, copy_to_clipboard := false }
        true "Hello world" ∧
    PasteAction.setClipboard "Hello world" ∈ Whispr.pasteActions false true "Hello world" ∧
    PasteAction.typeText "Hello world" ∉ Whispr.pasteActions false true "Hello world" ∧
    PasteAction.sendKey "ctrl+v" ∈ Whispr.pasteActions false true "Hello world" := by
  refine ⟨?_, ?_, ?_, ?_⟩ <;> decide

/-- C4 (amended): `_paste` always delivers through the
clipboard-snapshot/write/paste/restore pattern — ctrl+shift+v for
terminals and the generic ctrl+v otherwise — and no direct
character-by-character typing path exists for any window kind, snapshot
outcome, or text. -/
theorem paste_always_clipboard_pattern (is_term snap : Bool) (text : String)
    (ht : text ≠ "") :
    PasteAction.setClipboard text ∈ Whispr.pasteActions is_term snap text ∧
    PasteAction.sendKey (if is_term then "ctrl+shift+v" else "ctrl+v") ∈
      Whispr.pasteActions is_term snap text ∧
    (∀ t, PasteAction.typeText t ∉ Whispr.pasteActions is_term snap text) ∧
    (snap = true → PasteAction.restoreClipboard ∈ Whispr.pasteActions is_term snap text) ∧
    (Whispr.pasteActions is_term snap text).head? = some PasteAction.keyupModifiers := by
  unfold Whispr.pasteActions
  rw [if_neg ht]
  refine ⟨by simp, by simp, ?_, ?_, by simp⟩
  · intro t
    rcases snap <;> simp
  · intro hs
    rw [hs]
    simp

/-- C4 witness: the amended delivery pattern at a concrete non-terminal
paste. -/
theorem paste_always_clipboard_pattern_witness :
    ("Hi" : String) ≠ "" ∧
    PasteAction.setClipboard "Hi" ∈ Whispr.pasteActions false true "Hi" ∧
    PasteAction.sendKey "ctrl+v" ∈ Whispr.pasteActions false true "Hi" :=
  ⟨by decide,
    (paste_always_clipboard_pattern false true "Hi" (by decide)).1,
    (paste_always_clipboard_pattern false true "Hi" (by decide)).2.1⟩

/-- C9: on the terminal path with a successful snapshot, running the
emitted actions over any initial clipboard restores it: the clipboard
after the paste equals the clipboard before it, while the transcribed
text was written and the terminal shortcut sent in between. -/
theorem terminal_paste_clipboard_round_trip (clip0 text : String)
    (ht : text ≠ "") :
    (runPasteActions ⟨clip0, none⟩ (Whispr.pasteActions true true text)).clipboard =
      clip0 ∧
    PasteAction.setClipboard text ∈ Whispr.pasteActions true true text ∧
    PasteAction.sendKey "ctrl+shift+v" ∈ Whispr.pasteActions true true text := by
  unfold Whispr.pasteActions
  rw [if_neg ht]
  refine ⟨?_, by simp, by simp⟩
  simp [runPasteActions, applyPasteAction]

/-- C9 witness: round trip at a concrete clipboard and text. -/
theorem terminal_paste_clipboard_round_trip_witness :
    ("previous contents" : String) ≠ "" ∧ ("Hi" : String) ≠ "" ∧
    (runPasteActions ⟨"previous contents", none⟩
      (Whispr.pasteActions true true "Hi")).clipboard = "previous contents" :=
  ⟨by decide, by decide,
    (terminal_paste_clipboard_round_trip "previous contents" "Hi" (by decide)).1⟩

/-! ## Activation engine lemmas -/

/-- A timer fire in any state other than WAITING only clears the stored
source handle; in particular it cannot start a recording. -/
theorem checkActivation_not_waiting (cfg : WhisprConfig) (t : ℚ) (e : Engine)
    (h : e.state ≠ WhisprState.WAITING) :
    Whispr.checkActivation cfg t e = ({ e with activation_source := none }, false) := by
  unfold Whispr.checkActivation
  rw [if_pos (by simpa using h)]

/-- A timer fire in WAITING before the hold duration has elapsed (by the
fire-time wall clock) changes nothing but the stored source handle. -/
theorem checkActivation_early (cfg : WhisprConfig) (t t0 : ℚ) (e : Engine)
    (hW : e.state = WhisprState.WAITING) (hp : e.trigger_pressed = true)
    (ht : e.key_press_time = some t0) (hlt : t - t0 < cfg.hold_duration) :
    Whispr.checkActivation cfg t e = ({ e with activation_source := none }, false) := by
  unfold Whispr.checkActivation
  rw [if_neg (by simp [hW]), if_neg (by simp [hp])]
  simp only [ht]
  rw [if_neg (not_le.mpr hlt)]

/-- A timer fire in WAITING with the key still held and the hold duration
elapsed starts the recording. -/
theorem checkActivation_fire (cfg : WhisprConfig) (t t0 : ℚ) (e : Engine)
    (hW : e.state = WhisprState.WAITING) (hp : e.trigger_pressed = true)
    (ht : e.key_press_time = some t0) (hd : cfg.hold_duration ≤ t - t0) :
    Whispr.checkActivation cfg t e =
      ({ e with
         activation_source := none, state := WhisprState.RECORDING,
         startCount := e.startCount + 1 }, false) := by
  unfold Whispr.checkActivation
  rw [if_neg (by simp [hW]), if_neg (by simp [hp])]
  simp only [ht]
  rw [if_pos hd]
  rfl

/-- A trigger press from IDLE records the press time, enters WAITING and
schedules a fresh activation check. -/
theorem onKeyPress_idle (cfg : WhisprConfig) (key : PKey) (t : ℚ) (e : Engine)
    (hk : Whispr.isTriggerKey (Whispr.getTriggerKeys cfg.trigger_keys) key = true)
    (hp : e.trigger_pressed = false) (hs : e.state = WhisprState.IDLE) :
    Whispr.onKeyPress cfg key t e =
      { e with
        trigger_pressed := true, key_press_time := some t,
        state := WhisprState.WAITING,
        activation_source := some e.next_source,
        next_source := e.next_source + 1 } := by
  unfold Whispr.onKeyPress
  rw [hk, if_neg (by simp), hp]
  simp only [Bool.false_eq_true, if_false]
  rw [if_pos (by simpa using hs)]

/-- A trigger release from WAITING cancels the pending check and returns
to IDLE. -/
theorem onKeyRelease_waiting (cfg : WhisprConfig) (key : PKey) (e : Engine)
    (hk : Whispr.isTriggerKey (Whispr.getTriggerKeys cfg.trigger_keys) key = true)
    (hs : e.state = WhisprState.WAITING) :
    Whispr.onKeyRelease cfg key e =
      { e with
        trigger_pressed := false, state := WhisprState.IDLE,
        key_press_time := none, activation_source := none } := by
  unfold Whispr.onKeyRelease
  rw [hk, if_neg (by simp)]
  rw [if_pos (by simpa using hs)]

/-- A trigger release from RECORDING stops the capture and enters
TRANSCRIBING. -/
theorem onKeyRelease_recording (cfg : WhisprConfig) (key : PKey) (e : Engine)
    (hk : Whispr.isTriggerKey (Whispr.getTriggerKeys cfg.trigger_keys) key = true)
    (hs : e.state = WhisprState.RECORDING) :
    Whispr.onKeyRelease cfg key e =
      { e with
        trigger_pressed := false, state := WhisprState.TRANSCRIBING,
        stopCount := e.stopCount + 1 } := by
  unfold Whispr.onKeyRelease
  rw [hk, if_neg (by simp)]
  rw [if_neg (by simp [hs]), if_pos (by simpa using hs)]
  rfl

/-- Releasing any configured trigger key clears the single shared
`trigger_pressed` flag, whatever the engine state. -/
theorem onKeyRelease_clears_flag (cfg : WhisprConfig) (key : PKey) (e : Engine)
    (hk : Whispr.isTriggerKey (Whispr.getTriggerKeys cfg.trigger_keys) key = true) :
    (Whispr.onKeyRelease cfg key e).trigger_pressed = false := by
  unfold Whispr.onKeyRelease
  rw [hk, if_neg (by simp)]
  by_cases h1 : e.state = WhisprState.WAITING
  · rw [if_pos (by simpa using h1)]
  · rw [if_neg (by simpa using h1)]
    by_cases h2 : e.state = WhisprState.RECORDING
    · rw [if_pos (by simpa using h2)]
      rfl
    · rw [if_neg (by simpa using h2)]

/-- Running a concatenated event trace runs the pieces in sequence. -/
theorem runTrace_append (cfg : WhisprConfig) (l1 l2 : List KEvent) :
    ∀ e : Engine, Whispr.runTrace cfg e (l1 ++ l2) =
      Whispr.runTrace cfg (Whispr.runTrace cfg e l1) l2 := by
  induction l1 with
  | nil => intro e; rfl
  | cons ev evs ih =>
    intro e
    simp only [List.cons_append, Whispr.runTrace]
    exact ih _

/-- A state visited along a concatenated trace is visited along one of
its pieces. -/
theorem statesVisited_append_mem (cfg : WhisprConfig) (l1 l2 : List KEvent)
    (s : WhisprState) :
    ∀ e : Engine, s ∈ Whispr.statesVisited cfg e (l1 ++ l2) →
      s ∈ Whispr.statesVisited cfg e l1 ∨
      s ∈ Whispr.statesVisited cfg (Whispr.runTrace cfg e l1) l2 := by
  induction l1 with
  | nil =>
    intro e h
    exact Or.inr h
  | cons ev evs ih =>
    intro e h
    simp only [List.cons_append, Whispr.statesVisited, List.mem_cons] at h
    rcases h with h | h
    · exact Or.inl (by simp [Whispr.statesVisited, h])
    · rcases ih _ h with h' | h'
      · exact Or.inl (by simp [Whispr.statesVisited, h'])
      · exact Or.inr h'

/-- During a run of early timer fires from a WAITING state, the engine
stays WAITING with the press data intact and never starts recording. -/
theorem waiting_fires_invariant (cfg : WhisprConfig) (t0 : ℚ) :
    ∀ (fires : List ℚ) (e : Engine),
      (∀ t ∈ fires, t - t0 < cfg.hold_duration) →
      e.state = WhisprState.WAITING → e.trigger_pressed = true →
      e.key_press_time = some t0 →
      (Whispr.runTrace cfg e (fires.map KEvent.timerFire)).state = WhisprState.WAITING ∧
      (Whispr.runTrace cfg e (fires.map KEvent.timerFire)).trigger_pressed = true ∧
      (Whispr.runTrace cfg e (fires.map KEvent.timerFire)).key_press_time = some t0 ∧
      (Whispr.runTrace cfg e (fires.map KEvent.timerFire)).startCount = e.startCount ∧
      (∀ s ∈ Whispr.statesVisited cfg e (fires.map KEvent.timerFire),
        s = WhisprState.WAITING) := by
  intro fires
  induction fires with
  | nil =>
    intro e _ hW hp ht
    refine ⟨hW, hp, ht, rfl, ?_⟩
    intro s hs
    simp only [List.map_nil, Whispr.statesVisited, List.mem_singleton] at hs
    rw [hs, hW]
  | cons t rest ih =>
    intro e hf hW hp ht
    have hstep : Whispr.stepEvent cfg e (KEvent.timerFire t) =
        { e with activation_source := none } := by
      show (Whispr.checkActivation cfg t e).1 = _
      rw [checkActivation_early cfg t t0 e hW hp ht (hf t (by simp))]
    simp only [List.map_cons, Whispr.runTrace, Whispr.statesVisited, hstep]
    have ih' := ih { e with activation_source := none }
      (fun u hu => hf u (by simp [hu])) hW hp ht
    refine ⟨ih'.1, ih'.2.1, ih'.2.2.1, ih'.2.2.2.1, ?_⟩
    intro s hs
    rcases List.mem_cons.mp hs with h | h
    · rw [h, hW]
    · exact ih'.2.2.2.2 s h

/-- From IDLE, any sequence of timer fires — stale or not — keeps the
engine IDLE and never starts a recording. -/
theorem idle_fires_invariant (cfg : WhisprConfig) :
    ∀ (fires : List ℚ) (e : Engine), e.state = WhisprState.IDLE →
      (Whispr.runTrace cfg e (fires.map KEvent.timerFire)).state = WhisprState.IDLE ∧
      (Whispr.runTrace cfg e (fires.map KEvent.timerFire)).startCount = e.startCount ∧
      (∀ s ∈ Whispr.statesVisited cfg e (fires.map KEvent.timerFire),
        s = WhisprState.IDLE) := by
  intro fires
  induction fires with
  | nil =>
    intro e hI
    refine ⟨hI, rfl, ?_⟩
    intro s hs
    simp only [List.map_nil, Whispr.statesVisited, List.mem_singleton] at hs
    rw [hs, hI]
  | cons t rest ih =>
    intro e hI
    have hstep : Whispr.stepEvent cfg e (KEvent.timerFire t) =
        { e with activation_source := none } := by
      show (Whispr.checkActivation cfg t e).1 = _
      rw [checkActivation_not_waiting cfg t e (by simp [hI])]
    simp only [List.map_cons, Whispr.runTrace, Whispr.statesVisited, hstep]
    have ih' := ih { e with activation_source := none } hI
    refine ⟨ih'.1, ih'.2.1, ?_⟩
    intro s hs
    rcases List.mem_cons.mp hs with h | h
    · rw [h, hI]
    · exact ih'.2.2 s h

/-- C1: a qualifying fire (WAITING, key held, hold duration elapsed by
the fire-time wall clock) enters RECORDING and starts the recorder
exactly once; the callback returns `false` so the source is destroyed;
any further (stale) fire leaves the engine in RECORDING with no second
recorder start; and a fire whose wall-clock elapsed time is still short
does not activate, whatever delay was scheduled. -/
theorem activation_fires_exactly_once (cfg : WhisprConfig) (e : Engine) (t t0 : ℚ)
    (hW : e.state = WhisprState.WAITING) (hp : e.trigger_pressed = true)
    (ht : e.key_press_time = some t0) (hd : cfg.hold_duration ≤ t - t0) :
    (Whispr.checkActivation cfg t e).1.state = WhisprState.RECORDING ∧
    (Whispr.checkActivation cfg t e).1.startCount = e.startCount + 1 ∧
    (Whispr.checkActivation cfg t e).2 = false ∧
    (∀ t' : ℚ,
      (Whispr.checkActivation cfg t' (Whispr.checkActivation cfg t e).1).1.state =
        WhisprState.RECORDING ∧
      (Whispr.checkActivation cfg t' (Whispr.checkActivation cfg t e).1).1.startCount =
        e.startCount + 1 ∧
      (Whispr.checkActivation cfg t' (Whispr.checkActivation cfg t e).1).2 = false) ∧
    (∀ t' : ℚ, t' - t0 < cfg.hold_duration →
      (Whispr.checkActivation cfg t' e).1.state = WhisprState.WAITING ∧
      (Whispr.checkActivation cfg t' e).1.startCount = e.startCount) := by
  have hfire := checkActivation_fire cfg t t0 e hW hp ht hd
  refine ⟨by rw [hfire], by rw [hfire], by rw [hfire], ?_, ?_⟩
  · intro t'
    have hstale : Whispr.checkActivation cfg t' (Whispr.checkActivation cfg t e).1 =
        ({ (Whispr.checkActivation cfg t e).1 with activation_source := none }, false) := by
      apply checkActivation_not_waiting
      rw [hfire]
      simp
    rw [hstale, hfire]
    exact ⟨rfl, rfl, rfl⟩
  · intro t' hlt
    rw [checkActivation_early cfg t' t0 e hW hp ht hlt]
    exact ⟨hW, rfl⟩

/-- C1 witness: a held press from time 0 whose check fires at time 1
with a 1-second hold duration. -/
theorem activation_fires_exactly_once_witness :
    (({ hold_duration := 1 } : WhisprConfig).hold_duration ≤ (1 : ℚ) - 0) ∧
    ((Whispr.checkActivation { hold_duration := 1 } 1
      { state := WhisprState.WAITING, trigger_pressed := true,
        key_press_time := some 0, activation_source := some 0,
        next_source := 1, startCount := 0, stopCount := 0 }).1.state =
      WhisprState.RECORDING) ∧
    ((Whispr.checkActivation { hold_duration := 1 } 1
      { state := WhisprState.WAITING, trigger_pressed := true,
        key_press_time := some 0, activation_source := some 0,
        next_source := 1, startCount := 0, stopCount := 0 }).1.startCount = 1) :=
  ⟨by simp,
    (activation_fires_exactly_once { hold_duration := 1 }
      { state := WhisprState.WAITING, trigger_pressed := true,
        key_press_time := some 0, activation_source := some 0,
        next_source := 1, startCount := 0, stopCount := 0 } 1 0
      rfl rfl rfl (by simp)).1,
    (activation_fires_exactly_once { hold_duration := 1 }
      { state := WhisprState.WAITING, trigger_pressed := true,
        key_press_time := some 0, activation_source := some 0,
        next_source := 1, startCount := 0, stopCount := 0 } 1 0
      rfl rfl rfl (by simp)).2.1⟩

/-- C2: for any press of a configured trigger key followed by timer
fires that all arrive before the hold duration has elapsed and then a
release (with arbitrary stale fires afterwards), the engine ends in
IDLE, the recorder is never started, and RECORDING is never visited. -/
theorem early_release_never_records (cfg : WhisprConfig) (k : PKey) (t0 : ℚ)
    (fires postFires : List ℚ)
    (hk : Whispr.isTriggerKey (Whispr.getTriggerKeys cfg.trigger_keys) k = true)
    (hf : ∀ t ∈ fires, t - t0 < cfg.hold_duration) :
    (Whispr.runTrace cfg Whispr.initEngine
      (KEvent.press k t0 :: (fires.map KEvent.timerFire ++
        KEvent.release k :: postFires.map KEvent.timerFire))).state =
      WhisprState.IDLE ∧
    (Whispr.runTrace cfg Whispr.initEngine
      (KEvent.press k t0 :: (fires.map KEvent.timerFire ++
        KEvent.release k :: postFires.map KEvent.timerFire))).startCount = 0 ∧
    WhisprState.RECORDING ∉ Whispr.statesVisited cfg Whispr.initEngine
      (KEvent.press k t0 :: (fires.map KEvent.timerFire ++
        KEvent.release k :: postFires.map KEvent.timerFire)) := by
  have hpress : Whispr.stepEvent cfg Whispr.initEngine (KEvent.press k t0) =
      { Whispr.initEngine with
        trigger_pressed := true, key_press_time := some t0,
        state := WhisprState.WAITING, activation_source := some 0,
        next_source := 1 } := by
    show Whispr.onKeyPress cfg k t0 Whispr.initEngine = _
    rw [onKeyPress_idle cfg k t0 Whispr.initEngine hk rfl rfl]
    rfl
  set e1 : Engine :=
    { Whispr.initEngine with
      trigger_pressed := true, key_press_time := some t0,
      state := WhisprState.WAITING, activation_source := some 0,
      next_source := 1 } with he1
  have hw := waiting_fires_invariant cfg t0 fires e1 hf rfl rfl rfl
  set f := Whispr.runTrace cfg e1 (fires.map KEvent.timerFire) with hfdef
  have hrel : Whispr.stepEvent cfg f (KEvent.release k) =
      { f with
        trigger_pressed := false, state := WhisprState.IDLE,
        key_press_time := none, activation_source := none } := by
    show Whispr.onKeyRelease cfg k f = _
    rw [onKeyRelease_waiting cfg k f hk hw.1]
  set g : Engine :=
    { f with
      trigger_pressed := false, state := WhisprState.IDLE,
      key_press_time := none, activation_source := none } with hgdef
  have hcount : f.startCount = 0 := by
    have := hw.2.2.2.1
    simpa using this
  have hidle := idle_fires_invariant cfg postFires g rfl
  have hrun : Whispr.runTrace cfg Whispr.initEngine
      (KEvent.press k t0 :: (fires.map KEvent.timerFire ++
        KEvent.release k :: postFires.map KEvent.timerFire)) =
      Whispr.runTrace cfg g (postFires.map KEvent.timerFire) := by
    simp only [Whispr.runTrace, hpress, ← he1]
    rw [runTrace_append]
    simp only [← hfdef, Whispr.runTrace, hrel, ← hgdef]
  refine ⟨by rw [hrun]; exact hidle.1,
    by rw [hrun]; rw [hidle.2.1, hgdef]; exact hcount, ?_⟩
  intro hmem
  simp only [Whispr.statesVisited, hpress, ← he1, List.mem_cons] at hmem
  rcases hmem with h | h
  · exact absurd h.symm (by simp [Whispr.initEngine])
  · rcases statesVisited_append_mem cfg _ _ _ _ h with h' | h'
    · have := hw.2.2.2.2 _ h'
      simp at this
    · rw [← hfdef] at h'
      simp only [Whispr.statesVisited, hrel, ← hgdef, List.mem_cons] at h'
      rcases h' with h'' | h''
      · exact absurd h''.symm (by rw [hw.1]; simp)
      · have := hidle.2.2 _ h''
        simp at this

/-- C2 witness: a press of the left Alt key at time 0 released before
the default half-second hold, with no timer fires in between. -/
theorem early_release_never_records_witness :
    Whispr.isTriggerKey (Whispr.getTriggerKeys ({} : WhisprConfig).trigger_keys)
      PKey.alt_l = true ∧
    (Whispr.runTrace {} Whispr.initEngine
      (KEvent.press PKey.alt_l 0 :: (([] : List ℚ).map KEvent.timerFire ++
        KEvent.release PKey.alt_l :: ([] : List ℚ).map KEvent.timerFire))).state =
      WhisprState.IDLE ∧
    WhisprState.RECORDING ∉ Whispr.statesVisited {} Whispr.initEngine
      (KEvent.press PKey.alt_l 0 :: (([] : List ℚ).map KEvent.timerFire ++
        KEvent.release PKey.alt_l :: ([] : List ℚ).map KEvent.timerFire)) :=
  ⟨by decide,
    (early_release_never_records {} PKey.alt_l 0 [] [] (by decide) (by simp)).1,
    (early_release_never_records {} PKey.alt_l 0 [] [] (by decide) (by simp)).2.2⟩

/-- C10: while RECORDING, the release of any configured trigger key
stops the capture and moves the engine to TRANSCRIBING; the resulting
engine does not depend on which configured trigger key was released, and
releasing any configured trigger key clears the single shared
`trigger_pressed` flag in every state. -/
theorem any_trigger_release_stops_recording (cfg : WhisprConfig) (k1 k2 : PKey)
    (e : Engine)
    (h1 : Whispr.isTriggerKey (Whispr.getTriggerKeys cfg.trigger_keys) k1 = true)
    (h2 : Whispr.isTriggerKey (Whispr.getTriggerKeys cfg.trigger_keys) k2 = true)
    (hR : e.state = WhisprState.RECORDING) :
    (Whispr.onKeyRelease cfg k1 e).state = WhisprState.TRANSCRIBING ∧
    (Whispr.onKeyRelease cfg k1 e).stopCount = e.stopCount + 1 ∧
    (Whispr.onKeyRelease cfg k1 e).trigger_pressed = false ∧
    Whispr.onKeyRelease cfg k1 e = Whispr.onKeyRelease cfg k2 e ∧
    (∀ e' : Engine, (Whispr.onKeyRelease cfg k1 e').trigger_pressed = false) := by
  rw [onKeyRelease_recording cfg k1 e h1 hR, onKeyRelease_recording cfg k2 e h2 hR]
  exact ⟨rfl, rfl, rfl, rfl, fun e' => onKeyRelease_clears_flag cfg k1 e' h1⟩

/-- C10 witness: with the default trigger set, releasing left Alt while
RECORDING behaves exactly like releasing Print Screen. -/
theorem any_trigger_release_stops_recording_witness :
    Whispr.isTriggerKey (Whispr.getTriggerKeys ({} : WhisprConfig).trigger_keys)
      PKey.alt_l = true ∧
    Whispr.isTriggerKey (Whispr.getTriggerKeys ({} : WhisprConfig).trigger_keys)
      PKey.print_screen = true ∧
    (Whispr.onKeyRelease {} PKey.alt_l
      { state := WhisprState.RECORDING, trigger_pressed := true,
        key_press_time := some 0, activation_source := none,
        next_source := 1, startCount := 1, stopCount := 0 }).state =
      WhisprState.TRANSCRIBING ∧
    Whispr.onKeyRelease {} PKey.alt_l
      { state := WhisprState.RECORDING, trigger_pressed := true,
        key_press_time := some 0, activation_source := none,
        next_source := 1, startCount := 1, stopCount := 0 } =
    Whispr.onKeyRelease {} PKey.print_screen
      { state := WhisprState.RECORDING, trigger_pressed := true,
        key_press_time := some 0, activation_source := none,
        next_source := 1, startCount := 1, stopCount := 0 } :=
  ⟨by decide, by decide,
    (any_trigger_release_stops_recording {} PKey.alt_l PKey.print_screen
      { state := WhisprState.RECORDING, trigger_pressed := true,
        key_press_time := some 0, activation_source := none,
        next_source := 1, startCount := 1, stopCount := 0 }
      (by decide) (by decide) rfl).1,
    (any_trigger_release_stops_recording {} PKey.alt_l PKey.print_screen
      { state := WhisprState.RECORDING, trigger_pressed := true,
        key_press_time := some 0, activation_source := none,
        next_source := 1, startCount := 1, stopCount := 0 }
      (by decide) (by decide) rfl).2.2.2.1⟩

theorem subDelims_nil (op cl : Char) : subDelims op cl [] = [] := by
  rw [subDelims]

theorem subDelims_cons_ne (op cl c : Char) (rest : List Char) (h : c ≠ op) :
    subDelims op cl (c :: rest) = c :: subDelims op cl rest := by
  rw [subDelims, if_neg h]

theorem subDelims_cons_op_some (op cl : Char) (rest rest' : List Char)
    (h : dropThroughClose cl rest = some rest') :
    subDelims op cl (op :: rest) = subDelims op cl rest' := by
  rw [subDelims, if_pos rfl]
  split <;> rename_i heq
  · rw [h] at heq; cases heq; rfl
  · rw [h] at heq; cases heq

theorem subDelims_cons_op_none (op cl : Char) (rest : List Char)
    (h : dropThroughClose cl rest = none) :
    subDelims op cl (op :: rest) = op :: subDelims op cl rest := by
  rw [subDelims, if_pos rfl]
  split <;> rename_i heq
  · rw [h] at heq; cases heq
  · rfl

theorem dropThroughClose_eq_none (cl : Char) :
    ∀ l : List Char, dropThroughClose cl l = none ↔ cl ∉ l := by
  intro l
  induction l with
  | nil => simp [dropThroughClose]
  | cons c rest ih =>
    rw [dropThroughClose]
    by_cases hc : c = cl
    · rw [if_pos hc]
      simp [hc]
    · rw [if_neg hc]
      simp only [List.mem_cons, ih]
      constructor
      · intro hn
        intro hor
        rcases hor with h | h
        · exact hc h.symm
        · exact hn h
      · intro hn h
        exact hn (Or.inr h)

theorem dropThroughClose_length' {cl : Char} :
    ∀ {l l' : List Char}, dropThroughClose cl l = some l' → l'.length < l.length := by
  intro l
  induction l with
  | nil => intro l' h; simp [dropThroughClose] at h
  | cons c rest ih =>
    intro l' h
    rw [dropThroughClose] at h
    by_cases hc : c = cl
    · rw [if_pos hc] at h
      cases h
      simp
    · rw [if_neg hc] at h
      exact Nat.lt_trans (ih h) (by simp)

theorem dropThroughClose_sublist {cl : Char} :
    ∀ {l l' : List Char}, dropThroughClose cl l = some l' → List.Sublist l' l := by
  intro l
  induction l with
  | nil => intro l' h; simp [dropThroughClose] at h
  | cons c rest ih =>
    intro l' h
    rw [dropThroughClose] at h
    by_cases hc : c = cl
    · rw [if_pos hc] at h
      cases h
      exact List.sublist_cons_self c rest
    · rw [if_neg hc] at h
      exact (ih h).trans (List.sublist_cons_self c rest)

theorem subDelims_sublist (op cl : Char) : ∀ l : List Char, List.Sublist (subDelims op cl l) l := by
  have key : ∀ (n : ℕ) (l : List Char), l.length ≤ n → List.Sublist (subDelims op cl l) l := by
    intro n
    induction n with
    | zero =>
      intro l hl
      rw [List.length_eq_zero.mp (Nat.le_zero.mp hl)]
      rw [subDelims_nil]
    | succ n ih =>
      intro l hl
      match l with
      | [] => rw [subDelims_nil]
      | c :: rest =>
        by_cases hc : c = op
        · rw [hc]
          match hdrop : dropThroughClose cl rest with
          | some rest' =>
            rw [subDelims_cons_op_some op cl rest rest' hdrop]
            have h1 : rest'.length ≤ n := by
              have := dropThroughClose_length' hdrop
              simp only [List.length_cons] at hl
              omega
            exact ((ih rest' h1).trans (dropThroughClose_sublist hdrop)).trans
              (List.sublist_cons_self op rest)
          | none =>
            rw [subDelims_cons_op_none op cl rest hdrop]
            exact List.Sublist.cons₂ op (ih rest (by simpa using Nat.le_of_succ_le_succ hl))
        · rw [subDelims_cons_ne op cl c rest hc]
          exact List.Sublist.cons₂ c (ih rest (by simpa using Nat.le_of_succ_le_succ hl))
  intro l
  exact key l.length l (le_refl _)

theorem pair_sublist_cons {a b c : Char} {l : List Char} :
    List.Sublist [a, b] (c :: l) ↔ List.Sublist [a, b] l ∨ (a = c ∧ b ∈ l) := by
  rw [List.sublist_cons_iff]
  constructor
  · rintro (h | ⟨r, hr, hsub⟩)
    · exact Or.inl h
    · injection hr with h1 h2
      refine Or.inr ⟨h1, List.singleton_sublist.mp ?_⟩
      rw [h2]
      exact hsub
  · rintro (h | ⟨hac, hbl⟩)
    · exact Or.inl h
    · refine Or.inr ⟨[b], ?_, List.singleton_sublist.mpr hbl⟩
      rw [hac]

theorem subDelims_eq_self (op cl : Char) :
    ∀ l : List Char, ¬ List.Sublist [op, cl] l → subDelims op cl l = l := by
  have key : ∀ (n : ℕ) (l : List Char), l.length ≤ n →
      ¬ List.Sublist [op, cl] l → subDelims op cl l = l := by
    intro n
    induction n with
    | zero =>
      intro l hl _
      rw [List.length_eq_zero.mp (Nat.le_zero.mp hl), subDelims_nil]
    | succ n ih =>
      intro l hl hn
      match l with
      | [] => rw [subDelims_nil]
      | c :: rest =>
        have hrest : ¬ List.Sublist [op, cl] rest := fun h =>
          hn (pair_sublist_cons.mpr (Or.inl h))
        have hlen : rest.length ≤ n := by
          simp only [List.length_cons] at hl
          omega
        by_cases hc : c = op
        · have hcl : cl ∉ rest := fun hmem =>
            hn (pair_sublist_cons.mpr (Or.inr ⟨hc.symm, hmem⟩))
          rw [hc, subDelims_cons_op_none op cl rest
            ((dropThroughClose_eq_none cl rest).mpr hcl), ih rest hlen hrest]
        · rw [subDelims_cons_ne op cl c rest hc, ih rest hlen hrest]
  intro l
  exact key l.length l (le_refl _)

theorem subDelims_unmatched (op cl : Char) :
    ∀ l : List Char, ¬ List.Sublist [op, cl] (subDelims op cl l) := by
  have key : ∀ (n : ℕ) (l : List Char), l.length ≤ n →
      ¬ List.Sublist [op, cl] (subDelims op cl l) := by
    intro n
    induction n with
    | zero =>
      intro l hl
      rw [List.length_eq_zero.mp (Nat.le_zero.mp hl), subDelims_nil]
      simp
    | succ n ih =>
      intro l hl
      match l with
      | [] =>
        rw [subDelims_nil]
        simp
      | c :: rest =>
        have hlen : rest.length ≤ n := by
          simp only [List.length_cons] at hl
          omega
        by_cases hc : c = op
        · rw [hc]
          match hdrop : dropThroughClose cl rest with
          | some rest' =>
            rw [subDelims_cons_op_some op cl rest rest' hdrop]
            have h1 : rest'.length ≤ n := by
              have := dropThroughClose_length' hdrop
              omega
            exact ih rest' h1
          | none =>
            rw [subDelims_cons_op_none op cl rest hdrop]
            intro hpair
            rcases pair_sublist_cons.mp hpair with h | h
            · exact ih rest hlen h
            · have hclrest : cl ∈ rest :=
                (subDelims_sublist op cl rest).subset h.2
              exact (dropThroughClose_eq_none cl rest).mp hdrop hclrest
        · rw [subDelims_cons_ne op cl c rest hc]
          intro hpair
          rcases pair_sublist_cons.mp hpair with h | h
          · exact ih rest hlen h
          · exact hc h.1.symm
  intro l
  exact key l.length l (le_refl _)

theorem subDelims_idem (op cl : Char) (l : List Char) :
    subDelims op cl (subDelims op cl l) = subDelims op cl l :=
  subDelims_eq_self op cl _ (subDelims_unmatched op cl l)

theorem toNat_ofNat_of_lt {n : ℕ} (h : n < 0xd800) : (Char.ofNat n).toNat = n := by
  rw [Char.ofNat, dif_pos (Or.inl h)]
  rfl

theorem toUpper_eq (c : Char) :
    c.toUpper = if 97 ≤ c.toNat ∧ c.toNat ≤ 122 then Char.ofNat (c.toNat - 32) else c := by
  unfold Char.toUpper
  rfl

theorem toUpper_idem (c : Char) : c.toUpper.toUpper = c.toUpper := by
  rw [toUpper_eq c, toUpper_eq]
  split
  · rename_i h
    have h2 : (Char.ofNat (c.toNat - 32)).toNat = c.toNat - 32 :=
      toNat_ofNat_of_lt (by omega)
    rw [if_neg]
    rw [h2]
    omega
  · rfl

theorem toNat_inj {c d : Char} (h : c.toNat = d.toNat) : c = d := by
  have h2 := congrArg Char.ofNat h
  rwa [Char.ofNat_toNat, Char.ofNat_toNat] at h2

theorem toUpper_eq_self_of {c d : Char} (hd : d.toNat < 65 ∨ 90 < d.toNat)
    (h : c.toUpper = d) : c = d := by
  rw [toUpper_eq] at h
  by_cases hc : 97 ≤ c.toNat ∧ c.toNat ≤ 122
  · rw [if_pos hc] at h
    have h2 := congrArg Char.toNat h
    rw [toNat_ofNat_of_lt (by omega)] at h2
    omega
  · rwa [if_neg hc] at h

theorem char_eq_iff_toNat {c d : Char} : c = d ↔ c.toNat = d.toNat :=
  ⟨fun h => by rw [h], toNat_inj⟩

theorem pyIsSpace_iff (c : Char) : pyIsSpace c = true ↔
    c.toNat = 32 ∨ c.toNat = 9 ∨ c.toNat = 10 ∨ c.toNat = 13 ∨
    c.toNat = 11 ∨ c.toNat = 12 := by
  unfold pyIsSpace
  simp only [Bool.or_eq_true, decide_eq_true_eq]
  rw [char_eq_iff_toNat, char_eq_iff_toNat, char_eq_iff_toNat,
    char_eq_iff_toNat, char_eq_iff_toNat, char_eq_iff_toNat]
  rw [show (' ' : Char).toNat = 32 from rfl]
  rw [show ('\t' : Char).toNat = 9 from rfl]
  rw [show ('\n' : Char).toNat = 10 from rfl]
  rw [show ('\x0d' : Char).toNat = 13 from rfl]
  rw [show ('\x0b' : Char).toNat = 11 from rfl]
  rw [show ('\x0c' : Char).toNat = 12 from rfl]
  tauto

theorem pyIsSpace_toUpper (c : Char) : pyIsSpace c.toUpper = pyIsSpace c := by
  rw [toUpper_eq]
  split
  · rename_i h
    have hup : (Char.ofNat (c.toNat - 32)).toNat = c.toNat - 32 :=
      toNat_ofNat_of_lt (by omega)
    have ha : pyIsSpace (Char.ofNat (c.toNat - 32)) = false := by
      rw [← Bool.not_eq_true, pyIsSpace_iff, hup]
      omega
    have hb : pyIsSpace c = false := by
      rw [← Bool.not_eq_true, pyIsSpace_iff]
      omega
    rw [ha, hb]
  · rfl

theorem capitalizeChars_unmatched (op cl : Char)
    (hop : op.toNat < 65 ∨ 90 < op.toNat) (l : List Char)
    (h : ¬ List.Sublist [op, cl] l) :
    ¬ List.Sublist [op, cl] (capitalizeChars l) := by
  match l with
  | [] =>
    rw [capitalizeChars]
    exact h
  | c :: t =>
    rw [capitalizeChars]
    intro hpair
    rcases pair_sublist_cons.mp hpair with h' | h'
    · exact h (pair_sublist_cons.mpr (Or.inl h'))
    · have hc : c = op := toUpper_eq_self_of hop h'.1.symm
      exact h (pair_sublist_cons.mpr (Or.inr ⟨hc.symm, h'.2⟩))

theorem capitalizeChars_idem (l : List Char) :
    capitalizeChars (capitalizeChars l) = capitalizeChars l := by
  match l with
  | [] => rfl
  | c :: t =>
    rw [capitalizeChars, capitalizeChars, toUpper_idem]

theorem trimChars_sublist (l : List Char) : List.Sublist (trimChars l) l := by
  unfold trimChars trimRightChars trimLeftChars
  have h1 : List.Sublist (l.dropWhile pyIsSpace) l := List.dropWhile_sublist _
  have h2 : List.Sublist
      ((l.dropWhile pyIsSpace).reverse.dropWhile pyIsSpace)
      (l.dropWhile pyIsSpace).reverse := List.dropWhile_sublist _
  have h3 := h2.reverse
  rw [List.reverse_reverse] at h3
  exact h3.trans h1

theorem dropWhile_eq_self_of_head {α : Type} (p : α → Bool) (r : List α)
    (h : ∀ d, r.head? = some d → p d = false) : r.dropWhile p = r := by
  match r with
  | [] => rfl
  | d :: rest =>
    rw [List.dropWhile_cons, if_neg]
    rw [h d rfl]
    simp

theorem head?_dropWhile_false {α : Type} (p : α → Bool) (l : List α) (c : α)
    (h : (l.dropWhile p).head? = some c) : p c = false := by
  have hd := List.head?_dropWhile_not p l
  rw [h] at hd
  exact hd

theorem head?_trimRight (x : List Char) (c : Char)
    (h : (trimRightChars x).head? = some c) : x.head? = some c := by
  unfold trimRightChars at h
  rcases List.dropWhile_suffix (l := x.reverse) pyIsSpace with ⟨t, ht⟩
  have hx : x = (x.reverse.dropWhile pyIsSpace).reverse ++ t.reverse := by
    have := congrArg List.reverse ht
    rw [List.reverse_reverse, List.reverse_append] at this
    exact this.symm
  rw [hx, List.head?_append, h]
  rfl

theorem head?_trimChars (l : List Char) (c : Char)
    (h : (trimChars l).head? = some c) : pyIsSpace c = false := by
  unfold trimChars at h
  have h1 := head?_trimRight (trimLeftChars l) c h
  unfold trimLeftChars at h1
  exact head?_dropWhile_false pyIsSpace l c h1

theorem getLast?_trimChars (l : List Char) (c : Char)
    (h : (trimChars l).getLast? = some c) : pyIsSpace c = false := by
  unfold trimChars trimRightChars at h
  rw [List.getLast?_reverse] at h
  exact head?_dropWhile_false pyIsSpace (trimLeftChars l).reverse c h

theorem trimChars_eq_self (l : List Char)
    (hh : ∀ c, l.head? = some c → pyIsSpace c = false)
    (hl : ∀ c, l.getLast? = some c → pyIsSpace c = false) :
    trimChars l = l := by
  unfold trimChars
  have h1 : trimLeftChars l = l := dropWhile_eq_self_of_head pyIsSpace l hh
  rw [h1]
  unfold trimRightChars
  have h2 : l.reverse.dropWhile pyIsSpace = l.reverse := by
    apply dropWhile_eq_self_of_head
    intro d hd
    rw [List.head?_reverse] at hd
    exact hl d hd
  rw [h2, List.reverse_reverse]

theorem trimChars_capitalize_trim (u : List Char) :
    trimChars (capitalizeChars (trimChars u)) = capitalizeChars (trimChars u) := by
  apply trimChars_eq_self
  · intro c hc
    match hv : trimChars u with
    | [] =>
      rw [hv] at hc
      simp [capitalizeChars] at hc
    | d :: t =>
      rw [hv, capitalizeChars] at hc
      simp only [List.head?_cons, Option.some.injEq] at hc
      rw [← hc, pyIsSpace_toUpper]
      apply head?_trimChars u d
      rw [hv]
      rfl
  · intro c hc
    match hv : trimChars u with
    | [] =>
      rw [hv] at hc
      simp [capitalizeChars] at hc
    | d :: t =>
      rw [hv, capitalizeChars] at hc
      match t with
      | [] =>
        simp only [List.getLast?_singleton, Option.some.injEq] at hc
        rw [← hc, pyIsSpace_toUpper]
        apply head?_trimChars u d
        rw [hv]
        rfl
      | e :: t' =>
        rw [List.getLast?_cons_cons] at hc
        apply getLast?_trimChars u c
        rw [hv, List.getLast?_cons_cons]
        exact hc

theorem cleanChars_idem (l : List Char) : cleanChars (cleanChars l) = cleanChars l := by
  have hPa : ¬ List.Sublist ['(', ')'] (subDelims '(' ')' l) :=
    subDelims_unmatched '(' ')' l
  have hBb : ¬ List.Sublist ['[', ']']
      (subDelims '[' ']' (subDelims '(' ')' l)) :=
    subDelims_unmatched '[' ']' _
  have hPb : ¬ List.Sublist ['(', ')']
      (subDelims '[' ']' (subDelims '(' ')' l)) := fun h =>
    hPa (h.trans (subDelims_sublist '[' ']' _))
  have hPv : ¬ List.Sublist ['(', ')']
      (trimChars (subDelims '[' ']' (subDelims '(' ')' l))) := fun h =>
    hPb (h.trans (trimChars_sublist _))
  have hBv : ¬ List.Sublist ['[', ']']
      (trimChars (subDelims '[' ']' (subDelims '(' ')' l))) := fun h =>
    hBb (h.trans (trimChars_sublist _))
  have hPw := capitalizeChars_unmatched '(' ')' (Or.inl (by decide)) _ hPv
  have hBw := capitalizeChars_unmatched '[' ']' (Or.inr (by decide)) _ hBv
  show cleanChars (capitalizeChars (trimChars _)) = _
  unfold cleanChars
  rw [subDelims_eq_self '(' ')' _ hPw, subDelims_eq_self '[' ']' _ hBw,
    trimChars_capitalize_trim, capitalizeChars_idem]

/-- C8: the shared text-cleaning step is idempotent — cleaning the result
of cleaning any string returns the same text as cleaning it once. -/
theorem clean_text_idempotent (s : String) :
    Transcriber.clean_text (Transcriber.clean_text s) = Transcriber.clean_text s := by
  unfold Transcriber.clean_text
  rw [show (String.mk (cleanChars s.data)).data = cleanChars s.data from rfl]
  rw [cleanChars_idem]
